import Mathlib

/-!
Verification of the ultrasound proximity alarm repository.

The development shallowly embeds the two distance-measuring variants
(`ultrasound_proximity_alarm.py` and `ultrasound_led.py`) and the siren
synthesizer of the alarm variant.  Machine floats are modelled by `ℝ`
(for the audio path, which uses `sin` and `π`) and by `ℚ` (for the
distance path, which is ratios of clock readings); Python `int` loop
counters are `ℕ`.  The busy-wait loops over GPIO reads are embedded with
explicit fuel: a trace records the successive values returned by
`GPIO.input(ECHO_PIN)` and by `time.time()`, and running out of fuel
(`none` / `.fuelOut`) models divergence of the loop on that trace.
-/

namespace PiAlarm

/-! ### Constants (ultrasound_proximity_alarm.py, lines 35-44) -/

/-- Constant `DISTANCE_THRESHOLD_CM = 50`: beyond this, no sound. -/
def DISTANCE_THRESHOLD_CM : ℝ := 50

/-- Constant `MIN_VALID_DISTANCE_CM = 2`: sensor minimum. -/
def MIN_VALID_DISTANCE_CM : ℚ := 2

/-- Constant `MAX_VALID_DISTANCE_CM = 400`: sensor max. -/
def MAX_VALID_DISTANCE_CM : ℚ := 400

/-- Constant `SAMPLE_RATE = 44100`. -/
def SAMPLE_RATE : ℕ := 44100

/-- Constant `SIREN_FREQ_LOW = 800` Hz. -/
def SIREN_FREQ_LOW : ℕ := 800

/-- Constant `SIREN_FREQ_HIGH = 1100` Hz. -/
def SIREN_FREQ_HIGH : ℕ := 1100

/-- Constant `SIREN_CYCLE_SEC = 0.4` seconds per half-cycle. -/
def SIREN_CYCLE_SEC : ℚ := 0.4

/-- Constant `MAX_AMPLITUDE = 0.4`: max volume. -/
noncomputable def MAX_AMPLITUDE : ℝ := 0.4

/-- Initial value of the shared `_amplitude` variable (line 47: `_amplitude = 0.0`). -/
noncomputable def amplitude_initial : ℝ := 0.0

/-! ### AmplitudeMapper (`distance_to_amplitude`, lines 76-86) -/

/-- Embedding of `distance_to_amplitude`: `if distance_cm > DISTANCE_THRESHOLD_CM:
return 0.0`, otherwise `fraction = 1.0 - (distance_cm / DISTANCE_THRESHOLD_CM)`
and `return MAX_AMPLITUDE * fraction`. -/
noncomputable def distance_to_amplitude (distance_cm : ℝ) : ℝ :=
  if DISTANCE_THRESHOLD_CM < distance_cm then 0
  else MAX_AMPLITUDE * (1 - distance_cm / DISTANCE_THRESHOLD_CM)

/-! ### SirenSynthesizer (`generate_siren_chunk`, lines 89-121)

The synthesizer state is the mutable pair `state_ref = [phase_radians,
sample_counter]`.  `np.cumsum` over the per-sample phase increments is
embedded as partial sums; `phase_arr[-1]` equals the sum over the whole
chunk (for `num_samples = 0` the embedding totalizes `phase_arr[-1]` to
the incoming phase; every chunk the program requests has length
`CHUNK_SIZE = 1024 > 0`). -/

/-- Synthesizer state: `[phase_radians, sample_counter]`. -/
@[ext] structure SirenState where
  phase : ℝ
  sample_counter : ℕ

/-- Value `half_cycle_samples = int(SAMPLE_RATE * SIREN_CYCLE_SEC / 2)` (= 8820). -/
def half_cycle_samples : ℕ := (⌊(SAMPLE_RATE : ℚ) * SIREN_CYCLE_SEC / 2⌋).toNat

/-- Value `cycle_len = 2 * half_cycle_samples`. -/
def cycle_len : ℕ := 2 * half_cycle_samples

/-- Instantaneous tone frequency at absolute sample position `n`:
`np.where(cycle_pos < half_cycle_samples, SIREN_FREQ_LOW, SIREN_FREQ_HIGH)`
with `cycle_pos = n % cycle_len`. -/
def freq (n : ℕ) : ℕ :=
  if n % cycle_len < half_cycle_samples then SIREN_FREQ_LOW else SIREN_FREQ_HIGH

/-- Per-sample phase increment: `phase_deltas = 2 * np.pi * freq / SAMPLE_RATE`. -/
noncomputable def phase_delta (n : ℕ) : ℝ := 2 * Real.pi * freq n / SAMPLE_RATE

/-- Sum of the phase increments of the `k` samples starting at absolute
position `cnt` (a prefix of the chunk's `np.cumsum(phase_deltas)`). -/
noncomputable def sum_phase_deltas (cnt k : ℕ) : ℝ :=
  ∑ j in Finset.range k, phase_delta (cnt + j)

/-- Entry `phase_arr[i] = np.cumsum(phase_deltas)[i] + phase` for a chunk starting
at absolute sample position `cnt` with carried-in phase `φ`. -/
noncomputable def phase_at (φ : ℝ) (cnt i : ℕ) : ℝ := φ + sum_phase_deltas cnt (i + 1)

/-- Embedding of `generate_siren_chunk(state_ref, num_samples)`.  `amp` is the
value of the shared `_amplitude` read under the lock at the start of the call.
Returns the chunk together with the updated state (the function both mutates
`state_ref` and returns the new phase and counter). -/
noncomputable def generate_siren_chunk (amp : ℝ) (s : SirenState) (num_samples : ℕ) :
    List ℝ × SirenState :=
  if amp ≤ 0 then
    (List.replicate num_samples 0, ⟨s.phase, s.sample_counter + num_samples⟩)
  else
    ((List.range num_samples).map fun i =>
        amp * Real.sin (phase_at s.phase s.sample_counter i),
     ⟨s.phase + sum_phase_deltas s.sample_counter num_samples,
      s.sample_counter + num_samples⟩)

/-- N successive calls to `generate_siren_chunk` with chunk length `L`,
threading the state and concatenating the produced sample arrays (what the
audio loop does with `CHUNK_SIZE`-sample chunks). -/
noncomputable def generate_chunks (amp : ℝ) (s : SirenState) (L : ℕ) :
    ℕ → List ℝ × SirenState
  | 0 => ([], s)
  | N + 1 =>
    let r := generate_siren_chunk amp s L
    let rest := generate_chunks amp r.2 L N
    (r.1 ++ rest.1, rest.2)

/-! ### DistanceSampler (`measure_distance_cm`)

A trace records the environment: `echo e` is the value of the `e`-th call to
`GPIO.input(ECHO_PIN)` (`true` = `GPIO.HIGH`), and `clock t` the value of the
`t`-th call to `time.time()` made after the trigger pulse (the deadline
`timeout = time.time() + 0.02` is passed in as `t0 + 0.02`). -/

/-- Environment trace of GPIO echo reads and `time.time()` reads. -/
structure EchoTrace where
  echo : ℕ → Bool
  clock : ℕ → ℚ

/-- Result of one `while GPIO.input(ECHO_PIN) == level:` loop of the alarm
variant: out of fuel (models divergence), returned `MAX_VALID_DISTANCE_CM` on
deadline, or fell through with the next unused read indices. -/
inductive WaitResult where
  | fuelOut : WaitResult
  | timedOut : WaitResult
  | exited : ℕ → ℕ → WaitResult
deriving DecidableEq

/-- One timed echo-wait loop of the alarm variant (lines 62-68):
`while GPIO.input(ECHO_PIN) == level: if time.time() > deadline: return MAX`.
`e` and `t` are the indices of the next echo read and the next clock read. -/
def wait_while_level (tr : EchoTrace) (level : Bool) (deadline : ℚ) :
    ℕ → ℕ → ℕ → WaitResult
  | 0, _, _ => .fuelOut
  | fuel + 1, e, t =>
    if tr.echo e = level then
      if deadline < tr.clock t then .timedOut
      else wait_while_level tr level deadline fuel (e + 1) (t + 1)
    else .exited (e + 1) t

/-- Python's `round` to an integer: round-half-to-even (banker's rounding).
The tie-breaking rule never matters at the inputs used below. -/
def round_half_even (x : ℚ) : ℤ :=
  if x - ⌊x⌋ < 1 / 2 then ⌊x⌋
  else if 1 / 2 < x - ⌊x⌋ then ⌊x⌋ + 1
  else if ⌊x⌋ % 2 = 0 then ⌊x⌋ else ⌊x⌋ + 1

/-- Python's `round(x, 2)`. -/
def round2 (x : ℚ) : ℚ := (round_half_even (x * 100) : ℚ) / 100

/-- Embedding of the alarm variant's `measure_distance_cm` (lines 53-73) from
the point after the trigger pulse.  `t0` is the `time.time()` value used to
form `timeout = time.time() + 0.02`; clock reads inside the function then use
the trace.  `none` models a call that never returns (possible only when the
fuel runs out).  In the normal path
`return max(MIN, min(MAX, round(pulse_duration * 17150, 2)))`. -/
def measure_distance_cm (tr : EchoTrace) (t0 : ℚ) (fuel : ℕ) : Option ℚ :=
  let deadline := t0 + 0.02
  match wait_while_level tr false deadline fuel 0 0 with
  | .fuelOut => none
  | .timedOut => some MAX_VALID_DISTANCE_CM
  | .exited e t =>
    let pulse_start := tr.clock t
    match wait_while_level tr true deadline fuel e (t + 1) with
    | .fuelOut => none
    | .timedOut => some MAX_VALID_DISTANCE_CM
    | .exited _ t2 =>
      let pulse_end := tr.clock t2
      some (max MIN_VALID_DISTANCE_CM
        (min MAX_VALID_DISTANCE_CM (round2 ((pulse_end - pulse_start) * 17150))))

/-- The per-iteration write of the ControlLoop in `main` (lines 171-176):
`distance = measure_distance_cm()`, `amp = distance_to_amplitude(distance)`,
`_amplitude = amp` under the lock.  Returns the value written. -/
noncomputable def control_write (tr : EchoTrace) (t0 : ℚ) (fuel : ℕ) : Option ℝ :=
  (measure_distance_cm tr t0 fuel).map fun d : ℚ => distance_to_amplitude (d : ℝ)

/-! ### ControlLoop / AudioLoop termination protocol

`audio_thread_entry` (lines 137-139) runs `while not _stop_audio:` — it reads
the stop flag at the top of every iteration.  `stop i` is the value of
`_stop_audio` observed at the top of iteration `i`. `main`'s control loop
(lines 170-190) is `while True:` — its body measures, writes the amplitude,
drives the LED and sleeps, and contains no stop-flag check and no `break`; it
leaves the loop only through the `KeyboardInterrupt` exception. -/

/-- Whether the audio loop `while not _stop_audio:` has exited within `fuel`
iterations when started at iteration index `i`. -/
def audio_loop_exits_within (stop : ℕ → Bool) : ℕ → ℕ → Bool
  | 0, _ => false
  | fuel + 1, i => if stop i then true else audio_loop_exits_within stop fuel (i + 1)

/-- Whether `main`'s `while True:` control loop has exited within `fuel`
iterations: never, for any value of the stop flag — the loop body contains no
stop-flag check and no `break`. -/
def control_loop_exits_within (_stop : ℕ → Bool) (_fuel : ℕ) : Bool := false

/-- The process-level state touched by `main`'s shutdown path. -/
structure MainState where
  stop_audio : Bool
  led_on : Bool

/-- The `finally:` block of `main` (lines 192-196): `_stop_audio = True`,
then `GPIO.output(LED_PIN, GPIO.LOW)` and `GPIO.cleanup()`. -/
def main_shutdown (_s : MainState) : MainState := { stop_audio := true, led_on := false }

/-! ### Concrete traces used in witnesses and counterexamples -/

/-- A disconnected sensor: the echo pin never leaves LOW; the clock advances
one second per read. -/
def trace_silent : EchoTrace := ⟨fun _ => false, fun t => (t : ℚ)⟩

/-- A stuck-high echo pin: the falling edge never comes. -/
def trace_high : EchoTrace := ⟨fun _ => true, fun t => (t : ℚ)⟩

/-- An echo pulse of one second: the first echo read is HIGH, later ones LOW;
`time.time()` reads are 0 s and 1 s. -/
def trace_pulse1s : EchoTrace := ⟨fun e => e == 0, fun t => (t : ℚ)⟩

/-- A very short echo pulse: 10 µs between the two clock reads. -/
def trace_pulse_short : EchoTrace := ⟨fun e => e == 0, fun t => (t : ℚ) / 100000⟩

end PiAlarm

namespace UltrasoundLed

/-- One untimed echo-wait loop of the simple variant (ultrasound_led.py,
lines 35-39): `while GPIO.input(ECHO_PIN) == level: pass`.  Returns the next
unused echo-read index, or `none` when the fuel runs out (the loop has no
other way to stop while the pin stays at `level`). -/
def spin_while_level (tr : PiAlarm.EchoTrace) (level : Bool) : ℕ → ℕ → Option ℕ
  | 0, _ => none
  | fuel + 1, e =>
    if tr.echo e = level then spin_while_level tr level fuel (e + 1) else some (e + 1)

/-- Embedding of the simple variant's `measure_distance_cm` (ultrasound_led.py,
lines 26-44) from the point after the trigger pulse: no deadline on either
wait loop, and the result `round(pulse_duration * 17150, 2)` is returned with
no clamping. -/
def measure_distance_cm (tr : PiAlarm.EchoTrace) (fuel : ℕ) : Option ℚ :=
  match spin_while_level tr false fuel 0 with
  | none => none
  | some e =>
    let pulse_start := tr.clock 0
    match spin_while_level tr true fuel e with
    | none => none
    | some _ =>
      let pulse_end := tr.clock 1
      some (PiAlarm.round2 ((pulse_end - pulse_start) * 17150))

end UltrasoundLed

namespace PiAlarm

/-! ### Helper lemmas -/

/-- Closed form used in proofs: the mapper is `MAX_AMPLITUDE * max 0 (1 - d/50)`. -/
lemma distance_to_amplitude_eq (d : ℝ) :
    distance_to_amplitude d = MAX_AMPLITUDE * max 0 (1 - d / DISTANCE_THRESHOLD_CM) := by
  unfold distance_to_amplitude DISTANCE_THRESHOLD_CM
  rcases lt_or_le (50 : ℝ) d with h | h
  · rw [if_pos h, max_eq_left (by nlinarith), mul_zero]
  · rw [if_neg (not_lt.mpr h), max_eq_right (by nlinarith)]

lemma MAX_AMPLITUDE_nonneg : (0 : ℝ) ≤ MAX_AMPLITUDE := by norm_num [MAX_AMPLITUDE]

/-- The mapper lands in `[0, MAX_AMPLITUDE]` on nonnegative distances. -/
lemma distance_to_amplitude_mem (d : ℝ) (hd : 0 ≤ d) :
    0 ≤ distance_to_amplitude d ∧ distance_to_amplitude d ≤ MAX_AMPLITUDE := by
  rw [distance_to_amplitude_eq]
  constructor
  · exact mul_nonneg MAX_AMPLITUDE_nonneg (le_max_left _ _)
  · have h1 : max 0 (1 - d / DISTANCE_THRESHOLD_CM) ≤ 1 := by
      apply max_le (by norm_num)
      have : 0 ≤ d / DISTANCE_THRESHOLD_CM := by
        apply div_nonneg hd
        norm_num [DISTANCE_THRESHOLD_CM]
      linarith
    calc MAX_AMPLITUDE * max 0 (1 - d / DISTANCE_THRESHOLD_CM)
        ≤ MAX_AMPLITUDE * 1 := by
          exact mul_le_mul_of_nonneg_left h1 MAX_AMPLITUDE_nonneg
      _ = MAX_AMPLITUDE := mul_one _

lemma generate_siren_chunk_of_pos {amp : ℝ} (hamp : 0 < amp) (s : SirenState)
    (n : ℕ) :
    generate_siren_chunk amp s n =
      ((List.range n).map fun i => amp * Real.sin (phase_at s.phase s.sample_counter i),
       ⟨s.phase + sum_phase_deltas s.sample_counter n, s.sample_counter + n⟩) := by
  simp [generate_siren_chunk, not_le.mpr hamp]

lemma sum_phase_deltas_add (c L M : ℕ) :
    sum_phase_deltas c (L + M) =
      sum_phase_deltas c L + sum_phase_deltas (c + L) M := by
  unfold sum_phase_deltas
  rw [Finset.sum_range_add]
  congr 1
  exact Finset.sum_congr rfl fun j _ => (congrArg phase_delta (Nat.add_assoc c L j)).symm

lemma phase_at_shift (φ : ℝ) (c L i : ℕ) :
    phase_at φ c (L + i) = phase_at (φ + sum_phase_deltas c L) (c + L) i := by
  unfold phase_at
  rw [Nat.add_assoc L i 1, sum_phase_deltas_add]
  ring

/-- Generating one chunk of length `L + M` is the same as generating a chunk
of length `L` and then a chunk of length `M` from the updated state, with the
two sample arrays concatenated (positive amplitude case). -/
lemma generate_siren_chunk_split {amp : ℝ} (hamp : 0 < amp) (s : SirenState)
    (L M : ℕ) :
    generate_siren_chunk amp s (L + M) =
      ((generate_siren_chunk amp s L).1 ++
        (generate_siren_chunk amp (generate_siren_chunk amp s L).2 M).1,
       (generate_siren_chunk amp (generate_siren_chunk amp s L).2 M).2) := by
  simp only [generate_siren_chunk_of_pos hamp]
  refine Prod.ext ?_ ?_
  · dsimp only
    rw [List.range_add, List.map_append, List.map_map]
    congr 1
    refine List.map_congr_left fun i _ => ?_
    dsimp only [Function.comp]
    rw [phase_at_shift]
  · dsimp only
    ext
    · dsimp only
      rw [sum_phase_deltas_add]
      ring
    · dsimp only
      omega

/-- A timed echo-wait loop cannot run forever once the clock passes the
deadline: either the pin leaves `level` or the deadline check fires. -/
lemma wait_while_level_ne_fuelOut {tr : EchoTrace} {level : Bool} {deadline : ℚ}
    (hmono : Monotone tr.clock) {T : ℕ} (hT : deadline < tr.clock T) :
    ∀ fuel e t, t ≤ T → T < t + fuel →
      wait_while_level tr level deadline fuel e t ≠ WaitResult.fuelOut := by
  intro fuel
  induction fuel with
  | zero => intro e t h1 h2; omega
  | succ n ih =>
    intro e t h1 h2
    simp only [wait_while_level]
    by_cases hecho : tr.echo e = level
    · rw [if_pos hecho]
      by_cases hclk : deadline < tr.clock t
      · rw [if_pos hclk]
        exact fun h => WaitResult.noConfusion h
      · rw [if_neg hclk]
        have htlt : t < T := by
          rcases lt_or_ge t T with h | h
          · exact h
          · exact absurd (hT.trans_le (hmono h)) hclk
        exact ih (e + 1) (t + 1) htlt (by omega)
    · rw [if_neg hecho]
      exact fun h => WaitResult.noConfusion h

/-- If the pin still reads `level` at every poll through the first check past
the deadline — whatever it reads afterwards — a timed echo-wait loop returns
through the timeout path. -/
lemma wait_while_level_timedOut_of {tr : EchoTrace} {level : Bool} {deadline : ℚ}
    (hmono : Monotone tr.clock) {T : ℕ} (hT : deadline < tr.clock T) :
    ∀ fuel e t, t ≤ T → T < t + fuel →
      (∀ j, j ≤ T - t → tr.echo (e + j) = level) →
      wait_while_level tr level deadline fuel e t = WaitResult.timedOut := by
  intro fuel
  induction fuel with
  | zero => intro e t h1 h2 _; omega
  | succ n ih =>
    intro e t h1 h2 hall
    simp only [wait_while_level]
    rw [if_pos (by simpa using hall 0 (Nat.zero_le _))]
    by_cases hclk : deadline < tr.clock t
    · rw [if_pos hclk]
    · rw [if_neg hclk]
      have htlt : t < T := by
        rcases lt_or_ge t T with h | h
        · exact h
        · exact absurd (hT.trans_le (hmono h)) hclk
      refine ih (e + 1) (t + 1) htlt (by omega) ?_
      intro j hj
      have h := hall (j + 1) (by omega)
      rwa [show e + (j + 1) = e + 1 + j by omega] at h

/-- If the pin reads `level` with in-deadline checks for the first `k` polls
and then reads the other level, the timed wait loop falls through at read
`k`, consuming `k + 1` echo reads and `k` clock reads. -/
lemma wait_while_level_exits {tr : EchoTrace} {level : Bool} {deadline : ℚ} :
    ∀ k fuel e t, k < fuel →
      (∀ j, j < k → tr.echo (e + j) = level ∧ ¬ deadline < tr.clock (t + j)) →
      tr.echo (e + k) ≠ level →
      wait_while_level tr level deadline fuel e t =
        WaitResult.exited (e + k + 1) (t + k) := by
  intro k
  induction k with
  | zero =>
    intro fuel e t hf hpre hk
    cases fuel with
    | zero => omega
    | succ n =>
      simp only [wait_while_level]
      rw [if_neg (by simpa using hk)]
      congr 1
  | succ m ih =>
    intro fuel e t hf hpre hk
    cases fuel with
    | zero => omega
    | succ n =>
      simp only [wait_while_level]
      obtain ⟨he, hc⟩ := hpre 0 (Nat.succ_pos m)
      rw [if_pos (by simpa using he), if_neg (by simpa using hc)]
      refine Eq.trans (ih n (e + 1) (t + 1) (by omega) ?_ ?_) ?_
      · intro j hj
        obtain ⟨h1, h2⟩ := hpre (j + 1) (by omega)
        refine ⟨?_, ?_⟩
        · rwa [show e + (j + 1) = e + 1 + j by omega] at h1
        · rwa [show t + (j + 1) = t + 1 + j by omega] at h2
      · rwa [show e + (m + 1) = e + 1 + m by omega] at hk
      · congr 1 <;> omega

/-- Every value the alarm variant returns lies in the valid range. -/
lemma measure_clamped {tr : EchoTrace} {t0 : ℚ} {fuel : ℕ} {d : ℚ}
    (h : measure_distance_cm tr t0 fuel = some d) :
    MIN_VALID_DISTANCE_CM ≤ d ∧ d ≤ MAX_VALID_DISTANCE_CM := by
  unfold measure_distance_cm at h
  dsimp only at h
  cases h1 : wait_while_level tr false (t0 + 0.02) fuel 0 0 with
  | fuelOut =>
    rw [h1] at h
    exact Option.noConfusion h
  | timedOut =>
    rw [h1] at h
    dsimp only at h
    simp only [Option.some.injEq] at h
    subst h
    norm_num [MIN_VALID_DISTANCE_CM, MAX_VALID_DISTANCE_CM]
  | exited e t =>
    rw [h1] at h
    dsimp only at h
    cases h2 : wait_while_level tr true (t0 + 0.02) fuel e (t + 1) with
    | fuelOut =>
      rw [h2] at h
      exact Option.noConfusion h
    | timedOut =>
      rw [h2] at h
      dsimp only at h
      simp only [Option.some.injEq] at h
      subst h
      norm_num [MIN_VALID_DISTANCE_CM, MAX_VALID_DISTANCE_CM]
    | exited e2 t2 =>
      rw [h2] at h
      dsimp only at h
      simp only [Option.some.injEq] at h
      subst h
      refine ⟨le_max_left _ _, max_le ?_ (min_le_left _ _)⟩
      norm_num [MIN_VALID_DISTANCE_CM, MAX_VALID_DISTANCE_CM]

/-- The clock of `trace_silent` (and of `trace_high`, same function) is
monotone. -/
lemma trace_silent_clock_mono : Monotone trace_silent.clock := by
  intro a b h
  simpa [trace_silent] using Nat.cast_le.mpr h

/-- The clock of `trace_high` is monotone. -/
lemma trace_high_clock_mono : Monotone trace_high.clock := by
  intro a b h
  simpa [trace_high] using Nat.cast_le.mpr h

/-- Concrete evaluation: on the disconnected-sensor trace, the alarm variant
times out and returns `MAX_VALID_DISTANCE_CM`. -/
lemma measure_trace_silent :
    measure_distance_cm trace_silent 0 2 = some MAX_VALID_DISTANCE_CM := by
  norm_num [measure_distance_cm, wait_while_level, trace_silent]

/-- The audio loop started at iteration `i` exits within `fuel` iterations
exactly when the stop flag is observed set at one of those iterations. -/
lemma audio_loop_exits_within_iff (stop : ℕ → Bool) :
    ∀ fuel i, audio_loop_exits_within stop fuel i = true ↔
      ∃ j, j < fuel ∧ stop (i + j) = true := by
  intro fuel
  induction fuel with
  | zero =>
    intro i
    simp [audio_loop_exits_within]
  | succ n ih =>
    intro i
    simp only [audio_loop_exits_within]
    by_cases h : stop i = true
    · rw [if_pos h]
      exact ⟨fun _ => ⟨0, Nat.succ_pos n, by simpa using h⟩, fun _ => rfl⟩
    · rw [if_neg h]
      rw [ih (i + 1)]
      constructor
      · rintro ⟨j, hj, hs⟩
        exact ⟨j + 1, by omega, by rw [show i + (j + 1) = i + 1 + j by omega]; exact hs⟩
      · rintro ⟨j, hj, hs⟩
        cases j with
        | zero => exact absurd (by simpa using hs) h
        | succ k =>
          exact ⟨k, by omega, by rw [show i + 1 + k = i + (k + 1) by omega]; exact hs⟩

end PiAlarm

namespace UltrasoundLed

/-- An untimed echo-wait loop on a pin stuck at `level` never exits,
whatever the fuel: the loop of the simple variant diverges. -/
lemma spin_while_level_eq_none {tr : PiAlarm.EchoTrace} {level : Bool}
    (hall : ∀ e, tr.echo e = level) :
    ∀ fuel e, spin_while_level tr level fuel e = none := by
  intro fuel
  induction fuel with
  | zero => intro e; rfl
  | succ n ih =>
    intro e
    simp only [spin_while_level]
    rw [if_pos (hall e)]
    exact ih (e + 1)

end UltrasoundLed

namespace PiAlarm

/-! ### Claims -/

/-- C1: chunk-size independence of the siren synthesis.  For every starting
state and every constant amplitude `0 < amp ≤ MAX_AMPLITUDE`, generating `N`
consecutive chunks of length `L` and concatenating the sample arrays yields
the same samples, final phase and final sample counter as one single call of
length `N * L`. -/
theorem generate_chunks_eq_single (amp : ℝ) (s : SirenState) (L N : ℕ)
    (hamp : 0 < amp) (hmax : amp ≤ MAX_AMPLITUDE) (hL : 0 < L) :
    generate_chunks amp s L N = generate_siren_chunk amp s (N * L) := by
  induction N generalizing s with
  | zero =>
    rw [Nat.zero_mul, generate_siren_chunk_of_pos hamp]
    simp [generate_chunks, sum_phase_deltas]
  | succ N ih =>
    rw [show (N + 1) * L = L + N * L by ring, generate_siren_chunk_split hamp]
    simp only [generate_chunks]
    rw [ih]

/-- C1 witness: two chunks of one sample against one chunk of two samples. -/
theorem generate_chunks_eq_single_witness :
    generate_chunks MAX_AMPLITUDE ⟨0, 0⟩ 1 2 =
      generate_siren_chunk MAX_AMPLITUDE ⟨0, 0⟩ (2 * 1) :=
  generate_chunks_eq_single MAX_AMPLITUDE ⟨0, 0⟩ 1 2
    (by norm_num [MAX_AMPLITUDE]) le_rfl Nat.one_pos

/-- C2: silence correctness.  When the amplitude read at the start of the
call is `≤ 0`, every sample of the produced chunk is exactly `0`, the phase
is unchanged, and the sample counter advances by the chunk length. -/
theorem generate_siren_chunk_silence (amp : ℝ) (s : SirenState) (n : ℕ)
    (h : amp ≤ 0) :
    (generate_siren_chunk amp s n).1.length = n ∧
    (∀ x ∈ (generate_siren_chunk amp s n).1, x = 0) ∧
    (generate_siren_chunk amp s n).2.phase = s.phase ∧
    (generate_siren_chunk amp s n).2.sample_counter = s.sample_counter + n := by
  unfold generate_siren_chunk
  rw [if_pos h]
  exact ⟨List.length_replicate _ _, fun x hx => List.eq_of_mem_replicate hx, rfl, rfl⟩

/-- C2 witness: a three-sample silent chunk from phase 1, counter 5. -/
theorem generate_siren_chunk_silence_witness :
    (generate_siren_chunk 0 ⟨1, 5⟩ 3).1.length = 3 ∧
    (∀ x ∈ (generate_siren_chunk 0 ⟨1, 5⟩ 3).1, x = 0) ∧
    (generate_siren_chunk 0 ⟨1, 5⟩ 3).2.phase = (1 : ℝ) ∧
    (generate_siren_chunk 0 ⟨1, 5⟩ 3).2.sample_counter = 5 + 3 :=
  generate_siren_chunk_silence 0 ⟨1, 5⟩ 3 le_rfl

/-- C6: amplitude ceiling.  For any shared amplitude in `[0, MAX_AMPLITUDE]`
and any state, every sample of the produced chunk has magnitude at most
`MAX_AMPLITUDE`. -/
theorem generate_siren_chunk_ceiling (amp : ℝ) (s : SirenState) (n : ℕ)
    (h0 : 0 ≤ amp) (h1 : amp ≤ MAX_AMPLITUDE) :
    ∀ x ∈ (generate_siren_chunk amp s n).1, |x| ≤ MAX_AMPLITUDE := by
  intro x hx
  unfold generate_siren_chunk at hx
  by_cases hle : amp ≤ 0
  · rw [if_pos hle] at hx
    rw [List.eq_of_mem_replicate hx, abs_zero]
    exact MAX_AMPLITUDE_nonneg
  · rw [if_neg hle] at hx
    simp only [List.mem_map, List.mem_range] at hx
    obtain ⟨i, _, rfl⟩ := hx
    rw [abs_mul, abs_of_nonneg h0]
    calc amp * |Real.sin (phase_at s.phase s.sample_counter i)|
        ≤ amp * 1 := mul_le_mul_of_nonneg_left (Real.abs_sin_le_one _) h0
      _ = amp := mul_one _
      _ ≤ MAX_AMPLITUDE := h1

/-- C6 witness: the ceiling holds for a sample of a concrete silent chunk. -/
theorem generate_siren_chunk_ceiling_witness : |(0 : ℝ)| ≤ MAX_AMPLITUDE :=
  generate_siren_chunk_ceiling 0 ⟨0, 0⟩ 4 le_rfl MAX_AMPLITUDE_nonneg 0
    (by simp [generate_siren_chunk, List.mem_replicate])

/-- C3: the amplitude mapper equals the reference piecewise-linear definition,
maps `0` to `MAX_AMPLITUDE` and the threshold to `0`, is monotonically
non-increasing, and is continuous at the threshold. -/
theorem distance_to_amplitude_spec :
    (∀ d : ℝ, 0 ≤ d →
      (DISTANCE_THRESHOLD_CM < d → distance_to_amplitude d = 0) ∧
      (d ≤ DISTANCE_THRESHOLD_CM →
        distance_to_amplitude d = MAX_AMPLITUDE * (1 - d / DISTANCE_THRESHOLD_CM))) ∧
    distance_to_amplitude 0 = MAX_AMPLITUDE ∧
    distance_to_amplitude DISTANCE_THRESHOLD_CM = 0 ∧
    Antitone distance_to_amplitude ∧
    ContinuousAt distance_to_amplitude DISTANCE_THRESHOLD_CM := by
  have hfun : distance_to_amplitude =
      fun d => MAX_AMPLITUDE * max 0 (1 - d / DISTANCE_THRESHOLD_CM) :=
    funext distance_to_amplitude_eq
  refine ⟨fun d _ => ⟨fun h => ?_, fun h => ?_⟩, ?_, ?_, ?_, ?_⟩
  · simp only [distance_to_amplitude]
    rw [if_pos h]
  · simp only [distance_to_amplitude]
    rw [if_neg (not_lt.mpr h)]
  · rw [distance_to_amplitude_eq]
    norm_num [DISTANCE_THRESHOLD_CM, MAX_AMPLITUDE]
  · rw [distance_to_amplitude_eq]
    norm_num [DISTANCE_THRESHOLD_CM]
  · intro a b hab
    rw [distance_to_amplitude_eq, distance_to_amplitude_eq]
    apply mul_le_mul_of_nonneg_left _ MAX_AMPLITUDE_nonneg
    apply max_le_max le_rfl
    have h50 : (0 : ℝ) < DISTANCE_THRESHOLD_CM := by norm_num [DISTANCE_THRESHOLD_CM]
    have hdiv : a / DISTANCE_THRESHOLD_CM ≤ b / DISTANCE_THRESHOLD_CM :=
      (div_le_div_iff_of_pos_right h50).mpr hab
    linarith
  · rw [hfun]
    exact (continuous_const.mul (continuous_const.max
      (continuous_const.sub (continuous_id.div_const _)))).continuousAt

/-- C3 witness: the mapper evaluated inside the ramp at distance 25. -/
theorem distance_to_amplitude_spec_witness :
    distance_to_amplitude 25 =
      MAX_AMPLITUDE * (1 - 25 / DISTANCE_THRESHOLD_CM) :=
  (distance_to_amplitude_spec.1 25 (by norm_num)).2
    (by norm_num [DISTANCE_THRESHOLD_CM])

/-- C4: clamping.  Whatever the echo timing — including a timeout on either
edge — any value the alarm variant's `measure_distance_cm` returns lies in
`[MIN_VALID_DISTANCE_CM, MAX_VALID_DISTANCE_CM] = [2, 400]`. -/
theorem measure_distance_cm_clamped (tr : EchoTrace) (t0 : ℚ) (fuel : ℕ) (d : ℚ)
    (h : measure_distance_cm tr t0 fuel = some d) :
    MIN_VALID_DISTANCE_CM ≤ d ∧ d ≤ MAX_VALID_DISTANCE_CM :=
  measure_clamped h

/-- C4 witness: the result on the disconnected-sensor trace is in range. -/
theorem measure_distance_cm_clamped_witness :
    MIN_VALID_DISTANCE_CM ≤ MAX_VALID_DISTANCE_CM ∧
    MAX_VALID_DISTANCE_CM ≤ MAX_VALID_DISTANCE_CM :=
  measure_distance_cm_clamped trace_silent 0 2 MAX_VALID_DISTANCE_CM
    measure_trace_silent

/-- C5: timeout handling.  If the echo pin has not completed the awaited
transition when a deadline check first fires — it still reads LOW at a
post-deadline check of the first wait, whatever it reads afterwards, or it
rose normally within the deadline and still reads HIGH at a post-deadline
check of the second wait — then `measure_distance_cm` returns exactly
`MAX_VALID_DISTANCE_CM`, through an ordinary `return`, so no exception
propagates to the caller. -/
theorem measure_distance_cm_timeout (tr : EchoTrace) (t0 : ℚ)
    (hmono : Monotone tr.clock) :
    (∀ T fuel, (∀ i, i ≤ T → tr.echo i = false) → t0 + 0.02 < tr.clock T →
      T < fuel →
      measure_distance_cm tr t0 fuel = some MAX_VALID_DISTANCE_CM) ∧
    (∀ k T fuel, (∀ i, i < k → tr.echo i = false ∧ tr.clock i ≤ t0 + 0.02) →
      tr.echo k = true → (∀ i, k + 1 ≤ i → i ≤ T → tr.echo i = true) →
      t0 + 0.02 < tr.clock T → k + 1 ≤ T → T < fuel →
      measure_distance_cm tr t0 fuel = some MAX_VALID_DISTANCE_CM) := by
  constructor
  · intro T fuel hlow hT hfuel
    unfold measure_distance_cm
    dsimp only
    rw [wait_while_level_timedOut_of hmono hT fuel 0 0 (Nat.zero_le T) (by omega)
      (fun j hj => by simpa using hlow j (by omega))]
  · intro k T fuel hpre hk hhigh hT hkT hfuel
    unfold measure_distance_cm
    dsimp only
    have h1 : wait_while_level tr false (t0 + 0.02) fuel 0 0 =
        WaitResult.exited (k + 1) k := by
      have h := wait_while_level_exits k fuel 0 0 (by omega)
        (fun j hj => ⟨by simpa using (hpre j hj).1,
          by simpa using not_lt.mpr (hpre j hj).2⟩)
        (by simp [hk])
      simpa using h
    rw [h1]
    dsimp only
    rw [wait_while_level_timedOut_of hmono hT fuel (k + 1) (k + 1) hkT (by omega)
      (fun j hj => hhigh (k + 1 + j) (by omega) (by omega))]

/-- C5 witness: a pin that never rises times out in the first wait, and a pin
that rises at the very first read and never falls times out in the second
wait; both return the max distance. -/
theorem measure_distance_cm_timeout_witness :
    measure_distance_cm trace_silent 0 2 = some MAX_VALID_DISTANCE_CM ∧
    measure_distance_cm trace_high 0 2 = some MAX_VALID_DISTANCE_CM :=
  ⟨(measure_distance_cm_timeout trace_silent 0 trace_silent_clock_mono).1 1 2
      (fun _ _ => rfl) (by norm_num [trace_silent]) Nat.one_lt_two,
   (measure_distance_cm_timeout trace_high 0 trace_high_clock_mono).2 0 1 2
      (fun i hi => absurd hi (Nat.not_lt_zero i)) rfl
      (fun _ _ _ => rfl) (by norm_num [trace_high]) le_rfl Nat.one_lt_two⟩

/-- C7: shared-amplitude invariant.  The initial shared amplitude `0.0` is in
`[0, MAX_AMPLITUDE]`, and every value the control loop writes is
`distance_to_amplitude` of a measured distance in
`[MIN_VALID_DISTANCE_CM, MAX_VALID_DISTANCE_CM]` and is itself in
`[0, MAX_AMPLITUDE]`. -/
theorem shared_amplitude_invariant :
    (0 ≤ amplitude_initial ∧ amplitude_initial ≤ MAX_AMPLITUDE) ∧
    (∀ (tr : EchoTrace) (t0 : ℚ) (fuel : ℕ) (a : ℝ),
      control_write tr t0 fuel = some a →
      ∃ d : ℚ, measure_distance_cm tr t0 fuel = some d ∧
        MIN_VALID_DISTANCE_CM ≤ d ∧ d ≤ MAX_VALID_DISTANCE_CM ∧
        a = distance_to_amplitude (d : ℝ) ∧ 0 ≤ a ∧ a ≤ MAX_AMPLITUDE) := by
  constructor
  · constructor <;> norm_num [amplitude_initial, MAX_AMPLITUDE]
  · intro tr t0 fuel a ha
    unfold control_write at ha
    obtain ⟨d, hd, hda⟩ := Option.map_eq_some'.mp ha
    obtain ⟨h1, h2⟩ := measure_clamped hd
    have hd0 : (0 : ℝ) ≤ (d : ℝ) := by
      have hq : (0 : ℚ) ≤ d :=
        le_trans (by norm_num [MIN_VALID_DISTANCE_CM]) h1
      exact_mod_cast hq
    obtain ⟨hm0, hm1⟩ := distance_to_amplitude_mem (d : ℝ) hd0
    exact ⟨d, hd, h1, h2, hda.symm, hda ▸ hm0, hda ▸ hm1⟩

/-- C7 witness: the value written after a timed-out measurement. -/
theorem shared_amplitude_invariant_witness :
    ∃ d : ℚ, measure_distance_cm trace_silent 0 2 = some d ∧
      MIN_VALID_DISTANCE_CM ≤ d ∧ d ≤ MAX_VALID_DISTANCE_CM ∧
      distance_to_amplitude ((MAX_VALID_DISTANCE_CM : ℚ) : ℝ) =
        distance_to_amplitude (d : ℝ) ∧
      0 ≤ distance_to_amplitude ((MAX_VALID_DISTANCE_CM : ℚ) : ℝ) ∧
      distance_to_amplitude ((MAX_VALID_DISTANCE_CM : ℚ) : ℝ) ≤ MAX_AMPLITUDE :=
  shared_amplitude_invariant.2 trace_silent 0 2 _
    (by unfold control_write; rw [measure_trace_silent]; rfl)

/-- C8: echo-wait termination.  The alarm variant's measurement terminates on
every trace whose clock is monotone and eventually passes the deadline (both
wait loops are bounded by the 20 ms deadline), whereas the simple variant of
`ultrasound_led.py` never returns on any trace in which the echo pin never
leaves LOW — e.g. a disconnected sensor. -/
theorem echo_wait_termination :
    (∀ (tr : EchoTrace) (t0 : ℚ), Monotone tr.clock →
      (∃ T, t0 + 0.02 < tr.clock T) →
      ∃ fuel, (measure_distance_cm tr t0 fuel).isSome) ∧
    (∀ tr : EchoTrace, (∀ e, tr.echo e = false) →
      ∀ fuel, UltrasoundLed.measure_distance_cm tr fuel = none) := by
  constructor
  · intro tr t0 hmono ⟨T, hT⟩
    refine ⟨T + 1, ?_⟩
    unfold measure_distance_cm
    dsimp only
    cases h1 : wait_while_level tr false (t0 + 0.02) (T + 1) 0 0 with
    | fuelOut =>
      exact absurd h1 (wait_while_level_ne_fuelOut hmono hT (T + 1) 0 0 (by omega) (by omega))
    | timedOut => rfl
    | exited e t =>
      dsimp only
      cases h2 : wait_while_level tr true (t0 + 0.02) (T + 1) e (t + 1) with
      | fuelOut =>
        have hT' : t0 + 0.02 < tr.clock (max T (t + 1)) :=
          hT.trans_le (hmono (le_max_left T (t + 1)))
        exact absurd h2 (wait_while_level_ne_fuelOut hmono hT' (T + 1) e (t + 1)
          (le_max_right T (t + 1)) (max_lt_iff.mpr ⟨by omega, by omega⟩))
      | timedOut => rfl
      | exited e2 t2 => rfl
  · intro tr hall fuel
    unfold UltrasoundLed.measure_distance_cm
    rw [UltrasoundLed.spin_while_level_eq_none hall fuel 0]

/-- C8 witness: on the disconnected-sensor trace the alarm variant returns
while the simple variant spins forever. -/
theorem echo_wait_termination_witness :
    (∃ fuel, (measure_distance_cm trace_silent 0 fuel).isSome) ∧
    UltrasoundLed.measure_distance_cm trace_silent 3 = none :=
  ⟨echo_wait_termination.1 trace_silent 0 trace_silent_clock_mono
      ⟨1, by norm_num [trace_silent]⟩,
   echo_wait_termination.2 trace_silent (fun _ => rfl) 3⟩

/-- C9 counterexample: with the stop flag constantly set, the audio loop
exits at its first top-of-iteration poll, but the control loop — claimed to
poll the flag at the top of each iteration and exit — does not exit: `main`'s
loop is `while True:` with no stop-flag check. -/
theorem termination_protocol_counterexample :
    audio_loop_exits_within (fun _ => true) 1 0 = true ∧
    ¬ control_loop_exits_within (fun _ => true) 1 = true := by
  exact ⟨rfl, by decide⟩

/-- C9 (amended): the stop flag is polled by the audio loop at the top of
each iteration and the audio loop exits exactly when it observes the flag
set; the control loop never exits by the flag (it leaves its `while True:`
loop only through the `KeyboardInterrupt` exception); and the shutdown
handler (the `finally:` block of `main`) sets the stop flag and forces the
LED off. -/
theorem termination_protocol_amended :
    (∀ (stop : ℕ → Bool) (fuel i : ℕ),
      audio_loop_exits_within stop (fuel + 1) i =
        (stop i || audio_loop_exits_within stop fuel (i + 1))) ∧
    (∀ (stop : ℕ → Bool) (fuel : ℕ),
      audio_loop_exits_within stop fuel 0 = true ↔ ∃ j, j < fuel ∧ stop j = true) ∧
    (∀ (stop : ℕ → Bool) (fuel : ℕ), control_loop_exits_within stop fuel = false) ∧
    (∀ s : MainState,
      (main_shutdown s).stop_audio = true ∧ (main_shutdown s).led_on = false) := by
  refine ⟨?_, ?_, ?_, ?_⟩
  · intro stop fuel i
    simp only [audio_loop_exits_within]
    by_cases h : stop i = true <;> simp [h]
  · intro stop fuel
    rw [audio_loop_exits_within_iff]
    simp
  · intro stop fuel
    rfl
  · intro s
    exact ⟨rfl, rfl⟩

/-- C9 witness: the audio loop observes a constantly-set stop flag at its
first iteration. -/
theorem termination_protocol_amended_witness :
    audio_loop_exits_within (fun _ => true) 1 0 = true :=
  (termination_protocol_amended.2.1 (fun _ => true) 1).mpr
    ⟨0, Nat.zero_lt_one, rfl⟩

end PiAlarm

/-- C10: the simple variant applies no clamping — it returns
`round(pulse_duration * 17150, 2)` directly, so a 1 s echo pulse yields
17150 cm (far above `MAX_VALID_DISTANCE_CM = 400`) and a 10 µs pulse yields
0.17 cm (below `MIN_VALID_DISTANCE_CM = 2`), both outside the range the
alarm variant guarantees. -/
theorem UltrasoundLed.measure_distance_cm_unclamped :
    UltrasoundLed.measure_distance_cm PiAlarm.trace_pulse1s 2 = some 17150 ∧
    PiAlarm.MAX_VALID_DISTANCE_CM < 17150 ∧
    UltrasoundLed.measure_distance_cm PiAlarm.trace_pulse_short 2 = some (17 / 100) ∧
    (17 / 100 : ℚ) < PiAlarm.MIN_VALID_DISTANCE_CM := by
  refine ⟨?_, by norm_num [PiAlarm.MAX_VALID_DISTANCE_CM], ?_,
    by norm_num [PiAlarm.MIN_VALID_DISTANCE_CM]⟩
  · norm_num [UltrasoundLed.measure_distance_cm, UltrasoundLed.spin_while_level,
      PiAlarm.trace_pulse1s, PiAlarm.round2, PiAlarm.round_half_even]
  · norm_num [UltrasoundLed.measure_distance_cm, UltrasoundLed.spin_while_level,
      PiAlarm.trace_pulse_short, PiAlarm.round2, PiAlarm.round_half_even]
